import Mathlib

/-!
Shallow embedding of the HoloENFans/hefw-migration script (src/.eslintrc.js,
second document: the migration entry point `index.ts`).

The script walks guilds → projects → submissions, creating each entity in a
remote CMS unless its legacy id is already in `mapping.successfullyProcessed`,
resolving images through a local cache (`./images/cache`) with a read-only
originals directory (`./images/orig`) and a remote GET fallback.

Modelling conventions:
* Bytes of an image file are an opaque `Nat` (only identity matters).
* The filesystem is a pair of association lists keyed by (folder, filename);
  `writeFileSync` prepends (shadowing), `unlinkSync` removes all entries for
  the key and throws when the key is absent (ENOENT), `existsSync`/`readFileSync`
  are a lookup.
* External collaborators (WHATWG URL parsing, decodeURIComponent, axios GET,
  the four CMS POST endpoints, remark/slate markdown processing, date
  conversion) are oracle functions collected in `Env`.  `None` from an oracle
  models the corresponding call throwing / returning a failed response.
  Percent-encoding of the GET url (`encodeURI`) is folded into the GET oracle.
* JS exceptions are `Except Err`; state is always threaded (a throw does not
  roll back mutations already made), so every function has the shape
  `St → Except Err α × St`.
* `await`ed remote calls that the script wraps in try/catch are modelled by
  matching on the oracle result directly at the call site (throw-then-catch is
  folded into the branch).
* `console.log` / `console.error` output is not modelled.
* The remote-call log `St.events` records every GET and every media upload /
  entity-creation POST, the latter tagged with the legacy id and whether the
  remote call succeeded.
* JS string truthiness (`if (submission.src)`, etc.) is modelled by `strVal`,
  which maps the empty string to `none`.
-/

namespace Migration

abbrev Bytes := Nat

/-- Result of `new URL(s)`: the pieces the script reads. -/
structure URLParts where
  host : String
  pathname : String
deriving DecidableEq, Repr

/-- `'s3.fr-par.scw.cloud'`: the legacy object-storage host. -/
def legacyHost : String := "s3.fr-par.scw.cloud"

/-- Entries of `mapping.successfullyProcessed` (`any[]` holding guild id
strings, project id numbers and submission `$oid` strings; `includes`
uses strict equality, so a string never matches a number). -/
inductive LegacyId where
  | str (s : String)
  | num (n : Int)
deriving DecidableEq, Repr

inductive ContentType where
  | image | video | text
deriving DecidableEq, Repr

inductive ProjStatus where
  | ongoing | past
deriving DecidableEq, Repr

/-- Legacy guild record (interface IGuild); the nested
`debutDate.$date.$numberLong` string is flattened to `debutDateMs`. -/
structure IGuild where
  _id : String
  name : String
  description : String
  image : String
  invite : String
  debutDateMs : String
  color : Option String
deriving DecidableEq, Repr

/-- Legacy submission record (interface ISubmission); `_id.$oid` is
flattened to `oid`, `subtype` kept as a raw string. -/
structure ISubmission where
  oid : String
  project : Int
  author : Option String
  srcIcon : Option String
  type : ContentType
  subtype : Option String
  src : Option String
  message : Option String
deriving DecidableEq, Repr

/-- Legacy media entry of a project (interface IMedia). -/
structure IMediaItem where
  type : ContentType
  src : Option String
  message : Option String
deriving DecidableEq, Repr

structure ILink where
  name : String
  link : String
deriving DecidableEq, Repr

/-- Legacy project record (interface IProject). `credits` is carried as its
`JSON.stringify` image (an opaque string), since the script only ever
stringifies it. -/
structure IProject where
  _id : Int
  status : ProjStatus
  guild : String
  media : Option (List IMediaItem)
  title : String
  shortDescription : String
  description : String
  links : Option (List ILink)
  dateMs : String
  flags : Option String
  ogImage : Option String
  backgroundMusic : Option String
  credits : Option String
deriving DecidableEq, Repr

/-- interface IMapping. `guilds` / `projects` are objects (first match wins
after prepend-on-assign, matching key overwrite). -/
structure Mapping where
  guilds : List (String × String)
  projects : List (Int × String)
  successfullyProcessed : List LegacyId
deriving DecidableEq, Repr

/-- The two image directories: `./images/cache` (writable) and
`./images/orig` (read-only), keyed by (folder, filename). -/
structure FS where
  cache : List ((String × String) × Bytes)
  orig : List ((String × String) × Bytes)
deriving DecidableEq, Repr

/-- Payload POSTed to `/api/submissions` (the `newSubmission` object). -/
structure NewSubmission where
  project : Option String
  type : ContentType
  author : String
  subtype : Option String
  message : Option String
  url : Option String
  srcIcon : Option String
  media : Option String
deriving DecidableEq, Repr

/-- One entry of `newProject.media` (interface PayloadProjectMedia). -/
structure PayloadProjectMedia where
  type : ContentType
  media : Option String
  url : Option String
deriving DecidableEq, Repr

/-- Payload POSTed to `/api/projects` (the `newProject` object); the
slate rich-text `description` is the opaque output of the markdown oracle. -/
structure NewProject where
  image : String
  organizer : Option String
  shortDescription : String
  slug : String
  status : ProjStatus
  title : String
  links : List (String × String)
  description : Nat
  date : String
  devprops : List (String × String)
  ogImage : Option String
  media : List PayloadProjectMedia
deriving DecidableEq, Repr

/-- Payload POSTed to `/api/guilds` (the `newGuild` object). -/
structure NewGuild where
  name : String
  description : String
  debutDate : String
  invite : String
  icon : String
deriving DecidableEq, Repr

/-- Remote calls issued by the script.  Creation events carry the legacy id
and whether the remote call succeeded. -/
inductive Event where
  | getRemote (url : String)
  | postSubmissionMedia (b : Bytes)
  | postMedia (b : Bytes)
  | createGuild (legacyId : String) (ok : Bool)
  | createProject (legacyId : Int) (ok : Bool)
  | createSubmission (legacyId : String) (payload : NewSubmission) (ok : Bool)
deriving DecidableEq, Repr

/-- The legacy id of an entity-creation call (successful or not). -/
def Event.createdId : Event → Option LegacyId
  | .createGuild g _ => some (.str g)
  | .createProject p _ => some (.num p)
  | .createSubmission oid _ _ => some (.str oid)
  | _ => none

/-- The legacy id of a successful entity-creation call. -/
def Event.createdOk : Event → Option LegacyId
  | .createGuild g true => some (.str g)
  | .createProject p true => some (.num p)
  | .createSubmission oid _ true => some (.str oid)
  | _ => none

/-- JS exceptions that can escape a statement of the script. -/
inductive Err where
  | config
  | urlParse (s : String)
  | unlink (folder : String) (filename : String)
  | fetch (url : String)
deriving DecidableEq, Repr

/-- Oracles for the external collaborators. -/
structure Env where
  parseURL : String → Option URLParts
  decodeURIComponent : String → String
  remoteGet : String → Option Bytes
  postSubmissionMedia : Bytes → Option String
  postMedia : Bytes → Option String
  postGuild : NewGuild → Option String
  postProject : NewProject → Option String
  postSubmission : NewSubmission → Option Unit
  processMarkdown : String → Nat
  parseEpoch : String → Int
  toISOString : Int → String
  defaultMedia : String

/-- Mutable program state: the two image directories, the three global
accumulators (`mapping`, `failed`, `missing`) and the remote-call log. -/
structure St where
  fs : FS
  mapping : Mapping
  failed : List String
  missing : List ISubmission
  events : List Event
deriving DecidableEq, Repr

/-- The static legacy snapshot loaded from `./data/*.json`. -/
structure Snapshot where
  guilds : List IGuild
  projects : List IProject
  submissions : List ISubmission
deriving DecidableEq, Repr

/-- JS string truthiness for optional string fields: `undefined` and the
empty string are falsy. -/
def strVal : Option String → Option String
  | some s => if s = "" then none else some s
  | none => none

/-- `split('/')` on the character list (same semantics as the JS
`String.prototype.split` with a one-character separator). -/
def splitSlash : List Char → List (List Char)
  | [] => [[]]
  | c :: rest =>
    match splitSlash rest with
    | [] => [[]]
    | grp :: gs => if c = '/' then [] :: grp :: gs else (c :: grp) :: gs

/-- Last segment of `pathname.split('/')` (`pathSplit[pathSplit.length - 1]`).
`splitSlash` never returns an empty list, so the default is unreachable. -/
def lastSegment (path : String) : String :=
  String.mk ((splitSlash path.data).getLastD [])

/-- `cacheImage(folder, filename, file)`: mkdir + writeFileSync into the
cache directory (overwrite = shadow by prepending). -/
def cacheImage (folder filename : String) (file : Bytes) (fs : FS) : FS :=
  { fs with cache := ((folder, filename), file) :: fs.cache }

/-- Remove a cache file (the effect of a successful `fs.unlinkSync`). -/
def removeCache (folder filename : String) (fs : FS) : FS :=
  { fs with cache := fs.cache.filter (fun e => !(e.1 == (folder, filename))) }

/-- `findImageInCache(folder, filename, isFailed)` (lines 216–246).
Checks the cache directory, then the originals directory under the raw and
the URL-decoded filename (copying hits into the cache).  When `isFailed` is
set it unlinks the *cache* path and returns null; in the two originals
branches that cache path does not exist (the first `existsSync` was false),
so `fs.unlinkSync` throws ENOENT. -/
def findImageInCache (env : Env) (folder filename : String) (isFailed : Bool)
    (fs : FS) : Except Err (Option Bytes) × FS :=
  match List.lookup (folder, filename) fs.cache with
  | some b =>
    if isFailed then
      (.ok none, removeCache folder filename fs)
    else
      (.ok (some b), fs)
  | none =>
    match List.lookup (folder, filename) fs.orig with
    | some b =>
      if isFailed then
        (.error (.unlink folder filename), fs)
      else
        (.ok (some b), cacheImage folder filename b fs)
    | none =>
      match List.lookup (folder, env.decodeURIComponent filename) fs.orig with
      | some b =>
        if isFailed then
          (.error (.unlink folder filename), fs)
        else
          (.ok (some b), cacheImage folder filename b fs)
      | none => (.ok none, fs)

/-- `findCacheOrFetch(folder, url, isFailed)` (lines 248–260): derive the
filename from the URL's last path segment, try the cache store, otherwise
GET the url, write the body into the cache and return it. -/
def findCacheOrFetch (env : Env) (folder url : String) (isFailed : Bool)
    (s : St) : Except Err Bytes × St :=
  match env.parseURL url with
  | none => (.error (.urlParse url), s)
  | some u =>
    let filename := lastSegment u.pathname
    match findImageInCache env folder filename isFailed s.fs with
    | (.error e, fs') => (.error e, { s with fs := fs' })
    | (.ok (some b), fs') => (.ok b, { s with fs := fs' })
    | (.ok none, fs') =>
      let s' : St := { s with fs := fs', events := s.events ++ [.getRemote url] }
      match env.remoteGet url with
      | none => (.error (.fetch url), s')
      | some data => (.ok data, { s' with fs := cacheImage folder filename data s'.fs })

/-- The `newSubmission` object as first built (lines 265–274):
project mapping lookup, type, author with `?? 'Anonymous'`, optional
subtype/message; url/srcIcon/media filled in later. -/
def baseSubmission (sub : ISubmission) (m : Mapping) : NewSubmission :=
  { project := List.lookup sub.project m.projects
    type := sub.type
    author := sub.author.getD "Anonymous"
    subtype := strVal sub.subtype
    message := strVal sub.message
    url := none
    srcIcon := none
    media := none }

/-- Outcome of a block of `migrateSubmission` that can `return` early:
`.ok none` = the function returned (error caught, or missing recorded),
`.ok (some ns)` = continue with the updated `newSubmission`,
`.error` = an uncaught exception propagates. -/
abbrev BlockRes (α : Type) := Except Err (Option α) × St

/-- Video branch (lines 275–285): when `submission.src` is truthy and the
type is video, parse the src (uncaught on failure); a legacy-host video is
pushed onto `missing` and the submission is skipped, otherwise the url is
carried through unchanged. -/
def submissionVideoStep (env : Env) (sub : ISubmission) (ns : NewSubmission)
    (s : St) : BlockRes NewSubmission :=
  match strVal sub.src with
  | some v =>
    if sub.type = ContentType.video then
      match env.parseURL v with
      | none => (.error (.urlParse v), s)
      | some u =>
        if u.host = legacyHost then
          (.ok none, { s with missing := s.missing ++ [sub] })
        else
          (.ok (some { ns with url := some v }), s)
    else (.ok (some ns), s)
  | none => (.ok (some ns), s)

/-- Author-icon branch (lines 287–317): for a truthy `srcIcon`, parse it
(uncaught on failure); for a non-legacy host, try to fetch/cache the icon
(forcing invalidation when the submission id is in `failed`) and upload it;
any error inside the try block is caught and the submission is skipped
without touching `failed` or `missing`. -/
def submissionIconStep (env : Env) (sub : ISubmission) (ns : NewSubmission)
    (s : St) : BlockRes NewSubmission :=
  match strVal sub.srcIcon with
  | none => (.ok (some ns), s)
  | some icu =>
    match env.parseURL icu with
    | none => (.error (.urlParse icu), s)
    | some u =>
      if u.host = legacyHost then
        (.ok (some ns), s)
      else
        match findCacheOrFetch env (toString sub.project) icu
            (decide (sub.oid ∈ s.failed)) s with
        | (.error _, s') => (.ok none, s')
        | (.ok buf, s') =>
          let s' : St := { s' with events := s'.events ++ [.postSubmissionMedia buf] }
          match env.postSubmissionMedia buf with
          | none => (.ok none, s')
          | some mid => (.ok (some { ns with srcIcon := some mid }), s')

/-- Image branch (lines 318–372), entered only when the type is image.
`new URL(submission.src!)` happens before the try block, so a missing or
unparsable src is an uncaught exception.  Non-legacy hosts go through
fetch-or-cache plus upload, with errors caught into `failed.push`; the
legacy host is looked up only in the local cache store (no forced
invalidation, no remote GET), a miss pushing onto `missing`. -/
def submissionImageStep (env : Env) (sub : ISubmission) (ns : NewSubmission)
    (s : St) : BlockRes NewSubmission :=
  match sub.src with
  | none => (.error (.urlParse "undefined"), s)
  | some srcUrl =>
    match env.parseURL srcUrl with
    | none => (.error (.urlParse srcUrl), s)
    | some u =>
      let filename := lastSegment u.pathname
      if u.host = legacyHost then
        match findImageInCache env (toString sub.project) filename false s.fs with
        | (.error _, fs') =>
          -- unreachable (isFailed is false), but the try/catch would push onto failed
          (.ok none, { s with fs := fs', failed := s.failed ++ [sub.oid] })
        | (.ok none, fs') =>
          (.ok none, { s with fs := fs', missing := s.missing ++ [sub] })
        | (.ok (some buf), fs') =>
          let s' : St := { s with fs := fs', events := s.events ++ [.postSubmissionMedia buf] }
          match env.postSubmissionMedia buf with
          | none => (.ok none, { s' with failed := s'.failed ++ [sub.oid] })
          | some mid => (.ok (some { ns with media := some mid }), s')
      else
        match findCacheOrFetch env (toString sub.project) srcUrl
            (decide (sub.oid ∈ s.failed)) s with
        | (.error _, s') => (.ok none, { s' with failed := s'.failed ++ [sub.oid] })
        | (.ok buf, s') =>
          let s' : St := { s' with events := s'.events ++ [.postSubmissionMedia buf] }
          match env.postSubmissionMedia buf with
          | none => (.ok none, { s' with failed := s'.failed ++ [sub.oid] })
          | some mid => (.ok (some { ns with media := some mid }), s')

/-- Final POST of the submission (lines 374–383): a failed
`/api/submissions` call is caught, logged and pushes the legacy id onto
`failed`; on success the id is appended to `successfullyProcessed`. -/
def submissionCreateStep (env : Env) (sub : ISubmission) (ns : NewSubmission)
    (s : St) : Except Err Unit × St :=
  match env.postSubmission ns with
  | none =>
    (.ok (), { s with events := s.events ++ [.createSubmission sub.oid ns false],
                      failed := s.failed ++ [sub.oid] })
  | some _ =>
    (.ok (), { s with events := s.events ++ [.createSubmission sub.oid ns true],
                      mapping := { s.mapping with successfullyProcessed :=
                        s.mapping.successfullyProcessed ++ [.str sub.oid] } })

/-- `migrateSubmission` (lines 262–383): skip if already processed, then
video branch, author-icon branch, image branch, final creation POST. -/
def migrateSubmission (env : Env) (sub : ISubmission) (s : St) :
    Except Err Unit × St :=
  if LegacyId.str sub.oid ∈ s.mapping.successfullyProcessed then (.ok (), s)
  else
    match submissionVideoStep env sub (baseSubmission sub s.mapping) s with
    | (.error e, s₁) => (.error e, s₁)
    | (.ok none, s₁) => (.ok (), s₁)
    | (.ok (some ns₁), s₁) =>
      match submissionIconStep env sub ns₁ s₁ with
      | (.error e, s₂) => (.error e, s₂)
      | (.ok none, s₂) => (.ok (), s₂)
      | (.ok (some ns₂), s₂) =>
        match (if sub.type = ContentType.image
               then submissionImageStep env sub ns₂ s₂
               else (.ok (some ns₂), s₂)) with
        | (.error e, s₃) => (.error e, s₃)
        | (.ok none, s₃) => (.ok (), s₃)
        | (.ok (some ns₃), s₃) => submissionCreateStep env sub ns₃ s₃

/-- The submission loop shared by both branches of `migrateProject`
(lines 389–391 and 520–522); an uncaught exception from
`migrateSubmission` propagates. -/
def migrateSubmissions (env : Env) : List ISubmission → St → Except Err Unit × St
  | [], s => (.ok (), s)
  | sub :: rest, s =>
    match migrateSubmission env sub s with
    | (.error e, s') => (.error e, s')
    | (.ok _, s') => migrateSubmissions env rest s'

/-- The `newProject` object (lines 401–424) before the ogImage and media
branches run: devprops collects backgroundMusic / credits / flags (the
latter two as their `JSON.stringify` image). -/
def baseProject (env : Env) (p : IProject) (m : Mapping) : NewProject :=
  { image := env.defaultMedia
    organizer := List.lookup p.guild m.guilds
    shortDescription := p.shortDescription
    slug := toString p._id
    status := p.status
    title := p.title
    links := (p.links.getD []).map (fun l => (l.name, l.link))
    description := env.processMarkdown p.description
    date := env.toISOString (env.parseEpoch p.dateMs)
    devprops :=
      (match strVal p.backgroundMusic with
       | some bm => [("backgroundMusic", bm)]
       | none => [])
      ++ (match p.credits with
          | some c => [("credits", c)]
          | none => [])
      ++ (match p.flags with
          | some f => [("flags", f)]
          | none => [])
    ogImage := none
    media := [] }

/-- ogImage branch of `migrateProject` (lines 426–456): parse (uncaught on
failure); non-legacy hosts are fetched and uploaded, an error inside the
try block being caught and aborting the whole project (`return`). -/
def projectOgImageStep (env : Env) (p : IProject) (np : NewProject) (s : St) :
    BlockRes NewProject :=
  match strVal p.ogImage with
  | none => (.ok (some np), s)
  | some og =>
    match env.parseURL og with
    | none => (.error (.urlParse og), s)
    | some u =>
      if u.host = legacyHost then
        (.ok (some np), s)
      else
        match findCacheOrFetch env (toString p._id) og false s with
        | (.error _, s') => (.ok none, s')
        | (.ok buf, s') =>
          let s' : St := { s' with events := s'.events ++ [.postMedia buf] }
          match env.postMedia buf with
          | none => (.ok none, s')
          | some mid => (.ok (some { np with ogImage := some mid }), s')

/-- One task of `project.media?.map(async (media) => ...)` (lines 464–508).
`.ok none` = the task resolved to undefined (dropped from the media list);
`.error` = the task's promise rejected (the URL parse sits outside the try
block), which rejects the `Promise.all`. -/
def mediaTask (env : Env) (p : IProject) (m : IMediaItem) (s : St) :
    BlockRes PayloadProjectMedia :=
  match m.type with
  | .video =>
    (.ok (some { type := .video, media := none, url := m.src }), s)
  | .image =>
    match m.src with
    | none => (.error (.urlParse "undefined"), s)
    | some mu =>
      match env.parseURL mu with
      | none => (.error (.urlParse mu), s)
      | some u =>
        if u.host = legacyHost then
          (.ok none, s)
        else
          match findCacheOrFetch env (toString p._id) mu false s with
          | (.error _, s') => (.ok none, s')
          | (.ok buf, s') =>
            let s' : St := { s' with events := s'.events ++ [.postMedia buf] }
            match env.postMedia buf with
            | none => (.ok none, s')
            | some mid =>
              (.ok (some { type := .image, media := some mid, url := none }), s')
  | .text => (.ok none, s)

/-- `await Promise.all(mediaTasks)` followed by the undefined filter
(line 510), sequentialised left to right (the claims do not depend on the
interleaving of the concurrent tasks). -/
def runMediaTasks (env : Env) (p : IProject) :
    List IMediaItem → St → Except Err (List PayloadProjectMedia) × St
  | [], s => (.ok [], s)
  | m :: rest, s =>
    match mediaTask env p m s with
    | (.error e, s') => (.error e, s')
    | (.ok res, s') =>
      match runMediaTasks env p rest s' with
      | (.error e, s'') => (.error e, s'')
      | (.ok tail, s'') =>
        (.ok (match res with | some x => x :: tail | none => tail), s'')

/-- `migrateProject` (lines 385–524): an already-processed project only
walks its submissions; otherwise build the payload, run the ogImage and
media branches, POST `/api/projects` with `.catch` (a failure logs and
returns without mapping or marking processed), then record the new id and
the processed flag and walk the submissions. -/
def migrateProject (env : Env) (snap : Snapshot) (p : IProject) (s : St) :
    Except Err Unit × St :=
  let qualifying := snap.submissions.filter (fun sub => decide (sub.project = p._id))
  if LegacyId.num p._id ∈ s.mapping.successfullyProcessed then
    migrateSubmissions env qualifying s
  else
    match projectOgImageStep env p (baseProject env p s.mapping) s with
    | (.error e, s₁) => (.error e, s₁)
    | (.ok none, s₁) => (.ok (), s₁)
    | (.ok (some np₁), s₁) =>
      match runMediaTasks env p (p.media.getD []) s₁ with
      | (.error e, s₂) => (.error e, s₂)
      | (.ok mediaList, s₂) =>
        let np₂ : NewProject := { np₁ with media := mediaList }
        match env.postProject np₂ with
        | none =>
          (.ok (), { s₂ with events := s₂.events ++ [.createProject p._id false] })
        | some pid =>
          let s₃ : St :=
            { s₂ with
              events := s₂.events ++ [.createProject p._id true]
              mapping :=
                { s₂.mapping with
                  projects := (p._id, pid) :: s₂.mapping.projects
                  successfullyProcessed :=
                    s₂.mapping.successfullyProcessed ++ [.num p._id] } }
          migrateSubmissions env qualifying s₃

/-- The project loop of `migrateGuild` (lines 530–533 and 586–589). -/
def migrateProjects (env : Env) (snap : Snapshot) :
    List IProject → St → Except Err Unit × St
  | [], s => (.ok (), s)
  | p :: rest, s =>
    match migrateProject env snap p s with
    | (.error e, s') => (.error e, s')
    | (.ok _, s') => migrateProjects env snap rest s'

/-- The `newGuild` object (lines 539–547): icon starts at the
`DEFAULT_MEDIA` placeholder. -/
def baseGuild (env : Env) (g : IGuild) : NewGuild :=
  { name := g.name
    description := g.description
    debutDate := env.toISOString (env.parseEpoch g.debutDateMs)
    invite := g.invite
    icon := env.defaultMedia }

/-- Guild-icon try block (lines 549–575): fetch/cache under folder
`'guilds'` and upload; every error inside is caught and aborts the guild
(`return`), so the block cannot throw. -/
def guildIconStep (env : Env) (g : IGuild) (ng : NewGuild) (s : St) :
    Option NewGuild × St :=
  match findCacheOrFetch env "guilds" g.image false s with
  | (.error _, s') => (none, s')
  | (.ok buf, s') =>
    let s' : St := { s' with events := s'.events ++ [.postMedia buf] }
    match env.postMedia buf with
    | none => (none, s')
    | some mid => (some { ng with icon := mid }, s')

/-- `migrateGuild` (lines 526–590): an already-processed guild only walks
its projects; otherwise `new URL(guild.image)` runs outside any try block
(uncaught on failure), the icon is resolved for non-legacy hosts, the guild
is POSTed with `.catch` (failure logs and returns), and on success the
mapping/processed entries are recorded before walking the projects. -/
def migrateGuild (env : Env) (snap : Snapshot) (g : IGuild) (s : St) :
    Except Err Unit × St :=
  let qualifying := snap.projects.filter (fun p => decide (p.guild = g._id))
  if LegacyId.str g._id ∈ s.mapping.successfullyProcessed then
    migrateProjects env snap qualifying s
  else
    match env.parseURL g.image with
    | none => (.error (.urlParse g.image), s)
    | some u =>
      match (if u.host = legacyHost then (some (baseGuild env g), s)
             else guildIconStep env g (baseGuild env g) s) with
      | (none, s₁) => (.ok (), s₁)
      | (some ng₁, s₁) =>
        match env.postGuild ng₁ with
        | none =>
          (.ok (), { s₁ with events := s₁.events ++ [.createGuild g._id false] })
        | some gid =>
          let s₂ : St :=
            { s₁ with
              events := s₁.events ++ [.createGuild g._id true]
              mapping :=
                { s₁.mapping with
                  guilds := (g._id, gid) :: s₁.mapping.guilds
                  successfullyProcessed :=
                    s₁.mapping.successfullyProcessed ++ [.str g._id] } }
          migrateProjects env snap qualifying s₂

/-- The guild loop of `main` (lines 625–628). -/
def migrateGuilds (env : Env) (snap : Snapshot) :
    List IGuild → St → Except Err Unit × St
  | [], s => (.ok (), s)
  | g :: rest, s =>
    match migrateGuild env snap g s with
    | (.error e, s') => (.error e, s')
    | (.ok _, s') => migrateGuilds env snap rest s'

/-- The full hierarchical walk performed by `main`. -/
def mainWalk (env : Env) (snap : Snapshot) (s : St) : Except Err Unit × St :=
  migrateGuilds env snap snap.guilds s

/-- The startup environment variables (lines 49–51). -/
structure Config where
  cmsUrl : Option String
  apiKey : Option String
  bypassKey : Option String
  defaultMedia : Option String
deriving DecidableEq, Repr

/-- Startup check plus the walk (lines 53–55 and `main`): a missing
environment variable throws before any migration work; afterwards the only
way the run aborts is an uncaught exception escaping the walk. -/
def runProgram (cfg : Config) (env : Env) (snap : Snapshot) (s : St) :
    Except Err Unit × St :=
  if (strVal cfg.cmsUrl).isNone ∨ (strVal cfg.apiKey).isNone ∨
      (strVal cfg.bypassKey).isNone ∨ (strVal cfg.defaultMedia).isNone then
    (.error .config, s)
  else
    mainWalk env snap s

/-- The durable `./data` files the script writes. -/
structure DataFiles where
  idmapFile : Mapping
  missingFile : List ISubmission
  failedFile : List String
deriving DecidableEq, Repr

/-- `exitHandler` (lines 598–603), also the body of the `process.on('exit')`
listener (lines 592–596): writes `idmap.json` and `missing.json`.  It does
not write `failed.json`. -/
def exitHandler (s : St) (files : DataFiles) : DataFiles :=
  { files with idmapFile := s.mapping, missingFile := s.missing }

/-- The end-of-`main` flush (lines 632–634): writes `idmap.json`,
`missing.json` and `failed.json`. -/
def mainFinalFlush (s : St) (_files : DataFiles) : DataFiles :=
  { idmapFile := s.mapping, missingFile := s.missing, failedFile := s.failed }

/-- The state a second invocation starts from when the data files of a
finished run are preserved: mapping and failed are reloaded, the image
cache persists on disk, `missing` and the call log start empty. -/
def secondRunInit (s : St) : St :=
  { s with missing := [], events := [] }

/-! ## Walk invariants

`successfullyProcessed` grows append-only, every entity-creation call is
guarded by a processed-check, and every successful creation immediately
records its legacy id.  These three facts, packaged as `GoodStep`, drive the
idempotence claim. -/

/-- The processed-id set of a state. -/
def procOf (s : St) : List LegacyId := s.mapping.successfullyProcessed

/-- Legacy ids of all entity-creation calls in a log. -/
def createdIds (es : List Event) : List LegacyId := es.filterMap Event.createdId

/-- Legacy ids of all successful entity-creation calls in a log. -/
def createdOkIds (es : List Event) : List LegacyId := es.filterMap Event.createdOk

lemma Event.createdId_eq_of_createdOk {e : Event} {L : LegacyId}
    (h : e.createdOk = some L) : e.createdId = some L := by
  cases e with
  | getRemote url => simp [createdOk] at h
  | postSubmissionMedia b => simp [createdOk] at h
  | postMedia b => simp [createdOk] at h
  | createGuild g ok => cases ok <;> simp_all [createdOk, createdId]
  | createProject p ok => cases ok <;> simp_all [createdOk, createdId]
  | createSubmission oid ns ok => cases ok <;> simp_all [createdOk, createdId]

/-- A log fragment containing no entity-creation calls. -/
def NoCreations (E : List Event) : Prop := ∀ e ∈ E, e.createdId = none

/-- A state transition that leaves the processed set untouched and appends
only non-creation events to the log. -/
def NeutralStep (s s' : St) : Prop :=
  procOf s' = procOf s ∧ ∃ E, s'.events = s.events ++ E ∧ NoCreations E

/-- A state transition that (1) only appends to the processed set,
(2) only appends to the log, (3) never issues a creation call for an id
already processed at the start, and (4) ends with every successfully
created id in the processed set. -/
def GoodStep (s s' : St) : Prop :=
  (∃ d, procOf s' = procOf s ++ d) ∧
  ∃ E, s'.events = s.events ++ E ∧
    (∀ L ∈ procOf s, ∀ e ∈ E, e.createdId ≠ some L) ∧
    (∀ e ∈ E, ∀ L, e.createdOk = some L → L ∈ procOf s')

lemma NeutralStep.of_eq {s s' : St} (hp : procOf s' = procOf s)
    (he : s'.events = s.events) : NeutralStep s s' :=
  ⟨hp, [], by simp [he], fun e h => absurd h (List.not_mem_nil e)⟩

lemma NeutralStep.stay (s : St) : NeutralStep s s := .of_eq rfl rfl

lemma NeutralStep.push {s s' : St} (e : Event) (hp : procOf s' = procOf s)
    (he : s'.events = s.events ++ [e]) (hc : e.createdId = none) :
    NeutralStep s s' :=
  ⟨hp, [e], he, fun x hx => by rw [List.mem_singleton.1 hx]; exact hc⟩

lemma NeutralStep.comp {s t u : St} (h1 : NeutralStep s t)
    (h2 : NeutralStep t u) : NeutralStep s u := by
  obtain ⟨hp1, E1, he1, hn1⟩ := h1
  obtain ⟨hp2, E2, he2, hn2⟩ := h2
  refine ⟨hp2.trans hp1, E1 ++ E2, ?_, ?_⟩
  · rw [he2, he1, List.append_assoc]
  · intro e he
    rcases List.mem_append.1 he with h | h
    · exact hn1 e h
    · exact hn2 e h

lemma NeutralStep.good {s s' : St} (h : NeutralStep s s') : GoodStep s s' := by
  obtain ⟨hp, E, he, hn⟩ := h
  refine ⟨⟨[], by simp [hp]⟩, E, he, ?_, ?_⟩
  · intro L _ e heE
    rw [hn e heE]
    simp
  · intro e heE L hok
    have := Event.createdId_eq_of_createdOk hok
    rw [hn e heE] at this
    exact absurd this (by simp)

lemma GoodStep.idle (s : St) : GoodStep s s := (NeutralStep.stay s).good

lemma GoodStep.chain {s t u : St} (h1 : GoodStep s t) (h2 : GoodStep t u) :
    GoodStep s u := by
  obtain ⟨⟨d1, hp1⟩, E1, he1, hg1, hk1⟩ := h1
  obtain ⟨⟨d2, hp2⟩, E2, he2, hg2, hk2⟩ := h2
  refine ⟨⟨d1 ++ d2, by rw [hp2, hp1, List.append_assoc]⟩, E1 ++ E2,
    by rw [he2, he1, List.append_assoc], ?_, ?_⟩
  · intro L hL e he
    rcases List.mem_append.1 he with h | h
    · exact hg1 L hL e h
    · exact hg2 L (by rw [hp1]; exact List.mem_append_left _ hL) e h
  · intro e he L hok
    rcases List.mem_append.1 he with h | h
    · have := hk1 e h L hok
      rw [hp2]
      exact List.mem_append_left _ this
    · exact hk2 e h L hok

/-- A failed creation call for an id not yet processed: the log gains the
event, the processed set is unchanged. -/
lemma GoodStep.createFail {s s' : St} (e : Event) (L : LegacyId)
    (hid : e.createdId = some L) (hok : e.createdOk = none)
    (hL : L ∉ procOf s) (hp : procOf s' = procOf s)
    (he : s'.events = s.events ++ [e]) : GoodStep s s' := by
  refine ⟨⟨[], by simp [hp]⟩, [e], he, ?_, ?_⟩
  · intro L' hL' x hx
    rw [List.mem_singleton.1 hx, hid]
    intro hcon
    exact hL (by rw [Option.some_inj.1 hcon]; exact hL')
  · intro x hx L' hok'
    rw [List.mem_singleton.1 hx] at hok'
    rw [hok] at hok'
    exact absurd hok' (by simp)

/-- A successful creation call for an id not yet processed: the log gains
the event and the processed set gains exactly the id. -/
lemma GoodStep.createSucc {s s' : St} (e : Event) (L : LegacyId)
    (hid : e.createdId = some L) (hok : e.createdOk = some L)
    (hL : L ∉ procOf s) (hp : procOf s' = procOf s ++ [L])
    (he : s'.events = s.events ++ [e]) : GoodStep s s' := by
  refine ⟨⟨[L], hp⟩, [e], he, ?_, ?_⟩
  · intro L' hL' x hx
    rw [List.mem_singleton.1 hx, hid]
    intro hcon
    exact hL (by rw [Option.some_inj.1 hcon]; exact hL')
  · intro x hx L' hok'
    rw [List.mem_singleton.1 hx] at hok'
    rw [hok] at hok'
    rw [← Option.some_inj.1 hok', hp]
    exact List.mem_append_right _ (List.mem_singleton_self L)

lemma findCacheOrFetch_neutral (env : Env) (folder url : String) (b : Bool)
    (s : St) : NeutralStep s (findCacheOrFetch env folder url b s).2 := by
  unfold findCacheOrFetch
  cases h : env.parseURL url with
  | none => exact NeutralStep.stay s
  | some u =>
    dsimp only
    cases h2 : findImageInCache env folder (lastSegment u.pathname) b s.fs with
    | mk r fs' =>
      cases r with
      | error e => exact NeutralStep.of_eq rfl rfl
      | ok o =>
        cases o with
        | some bytes => exact NeutralStep.of_eq rfl rfl
        | none =>
          dsimp only
          cases h3 : env.remoteGet url with
          | none => exact NeutralStep.push _ rfl rfl rfl
          | some data => exact NeutralStep.push _ rfl rfl rfl

lemma submissionVideoStep_neutral (env : Env) (sub : ISubmission)
    (ns : NewSubmission) (s : St) :
    NeutralStep s (submissionVideoStep env sub ns s).2 := by
  unfold submissionVideoStep
  cases h : strVal sub.src with
  | none => exact NeutralStep.stay s
  | some v =>
    dsimp only
    by_cases ht : sub.type = ContentType.video
    · simp only [if_pos ht]
      cases h2 : env.parseURL v with
      | none => exact NeutralStep.stay s
      | some u =>
        dsimp only
        by_cases hh : u.host = legacyHost
        · simp only [if_pos hh]; exact NeutralStep.of_eq rfl rfl
        · simp only [if_neg hh]; exact NeutralStep.stay s
    · simp only [if_neg ht]; exact NeutralStep.stay s

lemma submissionIconStep_neutral (env : Env) (sub : ISubmission)
    (ns : NewSubmission) (s : St) :
    NeutralStep s (submissionIconStep env sub ns s).2 := by
  unfold submissionIconStep
  cases h : strVal sub.srcIcon with
  | none => exact NeutralStep.stay s
  | some icu =>
    dsimp only
    cases h2 : env.parseURL icu with
    | none => exact NeutralStep.stay s
    | some u =>
      dsimp only
      by_cases hh : u.host = legacyHost
      · simp only [if_pos hh]; exact NeutralStep.stay s
      · simp only [if_neg hh]
        cases h3 : findCacheOrFetch env (toString sub.project) icu
            (decide (sub.oid ∈ s.failed)) s with
        | mk r s' =>
          have hn : NeutralStep s s' := by
            have := findCacheOrFetch_neutral env (toString sub.project) icu
              (decide (sub.oid ∈ s.failed)) s
            rw [h3] at this
            exact this
          cases r with
          | error e => exact hn
          | ok buf =>
            dsimp only
            cases h4 : env.postSubmissionMedia buf with
            | none => exact hn.comp (NeutralStep.push _ rfl rfl rfl)
            | some mid => exact hn.comp (NeutralStep.push _ rfl rfl rfl)

lemma submissionImageStep_neutral (env : Env) (sub : ISubmission)
    (ns : NewSubmission) (s : St) :
    NeutralStep s (submissionImageStep env sub ns s).2 := by
  unfold submissionImageStep
  cases h : sub.src with
  | none => exact NeutralStep.stay s
  | some srcUrl =>
    dsimp only
    cases h2 : env.parseURL srcUrl with
    | none => exact NeutralStep.stay s
    | some u =>
      dsimp only
      by_cases hh : u.host = legacyHost
      · simp only [if_pos hh]
        cases h3 : findImageInCache env (toString sub.project)
            (lastSegment u.pathname) false s.fs with
        | mk r fs' =>
          cases r with
          | error e => exact NeutralStep.of_eq rfl rfl
          | ok o =>
            cases o with
            | none => exact NeutralStep.of_eq rfl rfl
            | some buf =>
              dsimp only
              cases h4 : env.postSubmissionMedia buf with
              | none => exact NeutralStep.push _ rfl rfl rfl
              | some mid => exact NeutralStep.push _ rfl rfl rfl
      · simp only [if_neg hh]
        cases h3 : findCacheOrFetch env (toString sub.project) srcUrl
            (decide (sub.oid ∈ s.failed)) s with
        | mk r s' =>
          have hn : NeutralStep s s' := by
            have := findCacheOrFetch_neutral env (toString sub.project) srcUrl
              (decide (sub.oid ∈ s.failed)) s
            rw [h3] at this
            exact this
          cases r with
          | error e => exact hn.comp (NeutralStep.of_eq rfl rfl)
          | ok buf =>
            dsimp only
            cases h4 : env.postSubmissionMedia buf with
            | none => exact hn.comp (NeutralStep.push _ rfl rfl rfl)
            | some mid => exact hn.comp (NeutralStep.push _ rfl rfl rfl)

lemma submissionCreateStep_good (env : Env) (sub : ISubmission)
    (ns : NewSubmission) (s : St) (h : LegacyId.str sub.oid ∉ procOf s) :
    GoodStep s (submissionCreateStep env sub ns s).2 := by
  unfold submissionCreateStep
  cases h2 : env.postSubmission ns with
  | none =>
    exact GoodStep.createFail (.createSubmission sub.oid ns false)
      (.str sub.oid) rfl rfl h rfl rfl
  | some _ =>
    exact GoodStep.createSucc (.createSubmission sub.oid ns true)
      (.str sub.oid) rfl rfl h rfl rfl

lemma migrateSubmission_good (env : Env) (sub : ISubmission) (s : St) :
    GoodStep s (migrateSubmission env sub s).2 := by
  unfold migrateSubmission
  by_cases h : LegacyId.str sub.oid ∈ s.mapping.successfullyProcessed
  · simp only [if_pos h]; exact GoodStep.idle s
  · simp only [if_neg h]
    cases h1 : submissionVideoStep env sub (baseSubmission sub s.mapping) s with
    | mk r1 s₁ =>
      have hn1 : NeutralStep s s₁ := by
        have := submissionVideoStep_neutral env sub (baseSubmission sub s.mapping) s
        rw [h1] at this
        exact this
      cases r1 with
      | error e => exact hn1.good
      | ok o1 =>
        cases o1 with
        | none => exact hn1.good
        | some ns₁ =>
          dsimp only
          cases h2 : submissionIconStep env sub ns₁ s₁ with
          | mk r2 s₂ =>
            have hn2 : NeutralStep s s₂ := hn1.comp (by
              have := submissionIconStep_neutral env sub ns₁ s₁
              rw [h2] at this
              exact this)
            cases r2 with
            | error e => exact hn2.good
            | ok o2 =>
              cases o2 with
              | none => exact hn2.good
              | some ns₂ =>
                dsimp only
                cases h3 : (if sub.type = ContentType.image
                    then submissionImageStep env sub ns₂ s₂
                    else (.ok (some ns₂), s₂)) with
                | mk r3 s₃ =>
                  have hn3 : NeutralStep s s₃ := hn2.comp (by
                    by_cases ht : sub.type = ContentType.image
                    · rw [if_pos ht] at h3
                      have := submissionImageStep_neutral env sub ns₂ s₂
                      rw [h3] at this
                      exact this
                    · rw [if_neg ht] at h3
                      injection h3 with ha hb
                      rw [← hb]
                      exact NeutralStep.stay s₂)
                  cases r3 with
                  | error e => exact hn3.good
                  | ok o3 =>
                    cases o3 with
                    | none => exact hn3.good
                    | some ns₃ =>
                      have hp : LegacyId.str sub.oid ∉ procOf s₃ := by
                        rw [hn3.1]; exact h
                      exact hn3.good.chain (submissionCreateStep_good env sub ns₃ s₃ hp)

lemma migrateSubmissions_good (env : Env) :
    ∀ (subs : List ISubmission) (s : St),
      GoodStep s (migrateSubmissions env subs s).2
  | [], s => GoodStep.idle s
  | sub :: rest, s => by
    unfold migrateSubmissions
    cases h : migrateSubmission env sub s with
    | mk r s' =>
      have hg : GoodStep s s' := by
        have := migrateSubmission_good env sub s
        rw [h] at this
        exact this
      cases r with
      | error e => exact hg
      | ok u => exact hg.chain (migrateSubmissions_good env rest s')

lemma projectOgImageStep_neutral (env : Env) (p : IProject) (np : NewProject)
    (s : St) : NeutralStep s (projectOgImageStep env p np s).2 := by
  unfold projectOgImageStep
  cases h : strVal p.ogImage with
  | none => exact NeutralStep.stay s
  | some og =>
    dsimp only
    cases h2 : env.parseURL og with
    | none => exact NeutralStep.stay s
    | some u =>
      dsimp only
      by_cases hh : u.host = legacyHost
      · simp only [if_pos hh]; exact NeutralStep.stay s
      · simp only [if_neg hh]
        cases h3 : findCacheOrFetch env (toString p._id) og false s with
        | mk r s' =>
          have hn : NeutralStep s s' := by
            have := findCacheOrFetch_neutral env (toString p._id) og false s
            rw [h3] at this
            exact this
          cases r with
          | error e => exact hn
          | ok buf =>
            dsimp only
            cases h4 : env.postMedia buf with
            | none => exact hn.comp (NeutralStep.push _ rfl rfl rfl)
            | some mid => exact hn.comp (NeutralStep.push _ rfl rfl rfl)

lemma mediaTask_neutral (env : Env) (p : IProject) (m : IMediaItem) (s : St) :
    NeutralStep s (mediaTask env p m s).2 := by
  unfold mediaTask
  cases m.type with
  | video => exact NeutralStep.stay s
  | text => exact NeutralStep.stay s
  | image =>
    dsimp only
    cases h : m.src with
    | none => exact NeutralStep.stay s
    | some mu =>
      dsimp only
      cases h2 : env.parseURL mu with
      | none => exact NeutralStep.stay s
      | some u =>
        dsimp only
        by_cases hh : u.host = legacyHost
        · simp only [if_pos hh]; exact NeutralStep.stay s
        · simp only [if_neg hh]
          cases h3 : findCacheOrFetch env (toString p._id) mu false s with
          | mk r s' =>
            have hn : NeutralStep s s' := by
              have := findCacheOrFetch_neutral env (toString p._id) mu false s
              rw [h3] at this
              exact this
            cases r with
            | error e => exact hn
            | ok buf =>
              dsimp only
              cases h4 : env.postMedia buf with
              | none => exact hn.comp (NeutralStep.push _ rfl rfl rfl)
              | some mid => exact hn.comp (NeutralStep.push _ rfl rfl rfl)

lemma runMediaTasks_neutral (env : Env) (p : IProject) :
    ∀ (ms : List IMediaItem) (s : St),
      NeutralStep s (runMediaTasks env p ms s).2
  | [], s => NeutralStep.stay s
  | m :: rest, s => by
    unfold runMediaTasks
    cases h : mediaTask env p m s with
    | mk r s' =>
      have hn : NeutralStep s s' := by
        have := mediaTask_neutral env p m s
        rw [h] at this
        exact this
      cases r with
      | error e => exact hn
      | ok res =>
        dsimp only
        cases h2 : runMediaTasks env p rest s' with
        | mk r2 s'' =>
          have hn2 : NeutralStep s s'' := hn.comp (by
            have := runMediaTasks_neutral env p rest s'
            rw [h2] at this
            exact this)
          cases r2 with
          | error e => exact hn2
          | ok tail => exact hn2

lemma guildIconStep_neutral (env : Env) (g : IGuild) (ng : NewGuild) (s : St) :
    NeutralStep s (guildIconStep env g ng s).2 := by
  unfold guildIconStep
  cases h : findCacheOrFetch env "guilds" g.image false s with
  | mk r s' =>
    have hn : NeutralStep s s' := by
      have := findCacheOrFetch_neutral env "guilds" g.image false s
      rw [h] at this
      exact this
    cases r with
    | error e => exact hn
    | ok buf =>
      dsimp only
      cases h2 : env.postMedia buf with
      | none => exact hn.comp (NeutralStep.push _ rfl rfl rfl)
      | some mid => exact hn.comp (NeutralStep.push _ rfl rfl rfl)

lemma migrateProject_good (env : Env) (snap : Snapshot) (p : IProject)
    (s : St) : GoodStep s (migrateProject env snap p s).2 := by
  unfold migrateProject
  dsimp only
  by_cases h : LegacyId.num p._id ∈ s.mapping.successfullyProcessed
  · simp only [if_pos h]; exact migrateSubmissions_good env _ s
  · simp only [if_neg h]
    cases h1 : projectOgImageStep env p (baseProject env p s.mapping) s with
    | mk r1 s₁ =>
      have hn1 : NeutralStep s s₁ := by
        have := projectOgImageStep_neutral env p (baseProject env p s.mapping) s
        rw [h1] at this
        exact this
      cases r1 with
      | error e => exact hn1.good
      | ok o1 =>
        cases o1 with
        | none => exact hn1.good
        | some np₁ =>
          dsimp only
          cases h2 : runMediaTasks env p (p.media.getD []) s₁ with
          | mk r2 s₂ =>
            have hn2 : NeutralStep s s₂ := hn1.comp (by
              have := runMediaTasks_neutral env p (p.media.getD []) s₁
              rw [h2] at this
              exact this)
            cases r2 with
            | error e => exact hn2.good
            | ok mediaList =>
              dsimp only
              cases h3 : env.postProject { np₁ with media := mediaList } with
              | none =>
                exact hn2.good.chain (GoodStep.createFail
                  (.createProject p._id false) (.num p._id) rfl rfl
                  (by rw [hn2.1]; exact h) rfl rfl)
              | some pid =>
                refine hn2.good.chain (GoodStep.chain ?_ (migrateSubmissions_good env _ _))
                exact GoodStep.createSucc (.createProject p._id true)
                  (.num p._id) rfl rfl (by rw [hn2.1]; exact h) rfl rfl

lemma migrateProjects_good (env : Env) (snap : Snapshot) :
    ∀ (ps : List IProject) (s : St),
      GoodStep s (migrateProjects env snap ps s).2
  | [], s => GoodStep.idle s
  | p :: rest, s => by
    unfold migrateProjects
    cases h : migrateProject env snap p s with
    | mk r s' =>
      have hg : GoodStep s s' := by
        have := migrateProject_good env snap p s
        rw [h] at this
        exact this
      cases r with
      | error e => exact hg
      | ok u => exact hg.chain (migrateProjects_good env snap rest s')

lemma migrateGuild_good (env : Env) (snap : Snapshot) (g : IGuild) (s : St) :
    GoodStep s (migrateGuild env snap g s).2 := by
  unfold migrateGuild
  dsimp only
  by_cases h : LegacyId.str g._id ∈ s.mapping.successfullyProcessed
  · simp only [if_pos h]; exact migrateProjects_good env snap _ s
  · simp only [if_neg h]
    cases hp : env.parseURL g.image with
    | none => exact GoodStep.idle s
    | some u =>
      dsimp only
      by_cases hh : u.host = legacyHost
      · simp only [if_pos hh]
        cases h2 : env.postGuild (baseGuild env g) with
        | none =>
          exact GoodStep.createFail (.createGuild g._id false) (.str g._id)
            rfl rfl h rfl rfl
        | some gid =>
          refine GoodStep.chain ?_ (migrateProjects_good env snap _ _)
          exact GoodStep.createSucc (.createGuild g._id true) (.str g._id)
            rfl rfl h rfl rfl
      · simp only [if_neg hh]
        cases h1 : guildIconStep env g (baseGuild env g) s with
        | mk o s₁ =>
          have hn1 : NeutralStep s s₁ := by
            have := guildIconStep_neutral env g (baseGuild env g) s
            rw [h1] at this
            exact this
          cases o with
          | none => exact hn1.good
          | some ng₁ =>
            dsimp only
            cases h2 : env.postGuild ng₁ with
            | none =>
              exact hn1.good.chain (GoodStep.createFail
                (.createGuild g._id false) (.str g._id) rfl rfl
                (by rw [hn1.1]; exact h) rfl rfl)
            | some gid =>
              refine hn1.good.chain (GoodStep.chain ?_ (migrateProjects_good env snap _ _))
              exact GoodStep.createSucc (.createGuild g._id true) (.str g._id)
                rfl rfl (by rw [hn1.1]; exact h) rfl rfl

lemma migrateGuilds_good (env : Env) (snap : Snapshot) :
    ∀ (gs : List IGuild) (s : St),
      GoodStep s (migrateGuilds env snap gs s).2
  | [], s => GoodStep.idle s
  | g :: rest, s => by
    unfold migrateGuilds
    cases h : migrateGuild env snap g s with
    | mk r s' =>
      have hg : GoodStep s s' := by
        have := migrateGuild_good env snap g s
        rw [h] at this
        exact this
      cases r with
      | error e => exact hg
      | ok u => exact hg.chain (migrateGuilds_good env snap rest s')

lemma mainWalk_good (env : Env) (snap : Snapshot) (s : St) :
    GoodStep s (mainWalk env snap s).2 :=
  migrateGuilds_good env snap snap.guilds s

/-! ## Concrete data for witnesses and counterexamples -/

instance instDecEqExcept {ε α : Type} [DecidableEq ε] [DecidableEq α] :
    DecidableEq (Except ε α) := fun a b =>
  match a, b with
  | .error e, .error e' =>
    if h : e = e' then isTrue (h ▸ rfl)
    else isFalse (fun hc => h (Except.error.inj hc))
  | .error _, .ok _ => isFalse (fun hc => Except.noConfusion hc)
  | .ok _, .error _ => isFalse (fun hc => Except.noConfusion hc)
  | .ok v, .ok v' =>
    if h : v = v' then isTrue (h ▸ rfl)
    else isFalse (fun hc => h (Except.ok.inj hc))

/-- A fully concrete oracle environment in which every remote call
succeeds; `parseURL` understands the two witness URLs. -/
def wEnv : Env :=
  { parseURL := fun s =>
      if s = "http://img.example/a/b.png" then some ⟨"img.example", "/a/b.png"⟩
      else if s = "https://s3.fr-par.scw.cloud/x/y.png" then
        some ⟨"s3.fr-par.scw.cloud", "/x/y.png"⟩
      else none
    decodeURIComponent := fun s => s
    remoteGet := fun _ => some 7
    postSubmissionMedia := fun _ => some "sm1"
    postMedia := fun _ => some "m1"
    postGuild := fun _ => some "G1"
    postProject := fun _ => some "P1"
    postSubmission := fun _ => some ()
    processMarkdown := fun _ => 0
    parseEpoch := fun _ => 0
    toISOString := fun _ => "1970-01-01T00:00:00.000Z"
    defaultMedia := "dm" }

def wGuild : IGuild :=
  { _id := "g1", name := "Guild", description := "", image := "http://img.example/a/b.png",
    invite := "inv", debutDateMs := "0", color := none }

def wSnap : Snapshot := ⟨[wGuild], [], []⟩

/-- Empty starting state: empty cache and originals, empty mapping,
failed, missing, no events. -/
def wS0 : St := ⟨⟨[], []⟩, ⟨[], [], []⟩, [], [], []⟩

/-- C1: running the full hierarchical walk a second time from the state a
first run left behind (mapping and failed persisted, missing and the call
log starting empty) issues no entity-creation call — guild, project or
submission — for any legacy id whose creation call succeeded during the
first run: such ids are in `successfullyProcessed` and are skipped for
creation while their children are still walked. -/
theorem walk_second_run_no_duplicate_creations (env : Env) (snap : Snapshot)
    (s₀ : St) (r₁ : Except Err Unit) (s₁ : St) (r₂ : Except Err Unit) (s₂ : St)
    (h0 : s₀.events = [])
    (h1 : mainWalk env snap s₀ = (r₁, s₁))
    (h2 : mainWalk env snap (secondRunInit s₁) = (r₂, s₂)) :
    ∀ L, (L ∈ createdOkIds s₁.events ∨ L ∈ procOf s₁) →
      L ∉ createdIds s₂.events := by
  intro L hL hmem
  have hg1 : GoodStep s₀ s₁ := by
    have := mainWalk_good env snap s₀
    rw [h1] at this
    exact this
  obtain ⟨⟨d1, hp1⟩, E1, he1, hg1g, hk1⟩ := hg1
  have hLproc : L ∈ procOf s₁ := by
    rcases hL with hL | hL
    · obtain ⟨e, he, hok⟩ := List.mem_filterMap.1 hL
      have heE1 : e ∈ E1 := by
        rw [he1, h0] at he
        simpa using he
      exact hk1 e heE1 L hok
    · exact hL
  have hg2 : GoodStep (secondRunInit s₁) s₂ := by
    have := mainWalk_good env snap (secondRunInit s₁)
    rw [h2] at this
    exact this
  obtain ⟨⟨d2, hp2⟩, E2, he2, hg2g, hk2⟩ := hg2
  obtain ⟨e2, he2m, hid2⟩ := List.mem_filterMap.1 hmem
  have heE2 : e2 ∈ E2 := by
    rw [he2] at he2m
    simpa [secondRunInit] using he2m
  exact hg2g L hLproc e2 heE2 hid2

/-- Witness for C1 at a concrete one-guild snapshot: the first run
successfully creates guild `g1`; the second run issues no creation call
for it. -/
theorem walk_second_run_no_duplicate_creations_witness :
    LegacyId.str "g1" ∈ createdOkIds (mainWalk wEnv wSnap wS0).2.events ∧
    LegacyId.str "g1" ∉
      createdIds (mainWalk wEnv wSnap (secondRunInit (mainWalk wEnv wSnap wS0).2)).2.events :=
  ⟨by decide,
   walk_second_run_no_duplicate_creations wEnv wSnap wS0 _ _ _ _ rfl rfl rfl
     (.str "g1") (Or.inl (by decide))⟩

/-- C10: calling the cache lookup with the force-invalidation flag set when
the file is absent from the cache directory but present in the originals
directory (under the raw or the URL-decoded filename) throws — the code
unconditionally unlinks the non-existent cache path — instead of returning
not-found or the originals bytes. -/
theorem forced_invalidation_unlink_throws (env : Env) (folder filename : String)
    (fs : FS) (b : Bytes)
    (hc : List.lookup (folder, filename) fs.cache = none)
    (ho : List.lookup (folder, filename) fs.orig = some b ∨
      (List.lookup (folder, filename) fs.orig = none ∧
       List.lookup (folder, env.decodeURIComponent filename) fs.orig = some b)) :
    findImageInCache env folder filename true fs =
      (.error (.unlink folder filename), fs) := by
  rcases ho with h | ⟨h1, h2⟩
  · simp only [findImageInCache, hc, h]
    exact if_pos trivial
  · simp only [findImageInCache, hc, h1, h2]
    exact if_pos trivial

def wFS10 : FS := ⟨[], [(("1", "f.png"), 5)]⟩

/-- Witness for C10: an empty cache with `f.png` present in the originals
directory under project folder `1`. -/
theorem forced_invalidation_unlink_throws_witness :
    findImageInCache wEnv "1" "f.png" true wFS10 =
      (.error (.unlink "1" "f.png"), wFS10) :=
  forced_invalidation_unlink_throws wEnv "1" "f.png" wFS10 5 (by decide)
    (Or.inl (by decide))

/-- C6: resolving the image of a submission `S` in the Failed set when a
stale cached file is present first deletes the stale cache entry and then
obtains the bytes from a remote fetch (never the previously cached bytes):
the result is exactly the freshly fetched body, the cache ends up holding
it in place of the stale entry, and a remote GET is logged. -/
theorem failed_submission_stale_cache_invalidated (env : Env)
    (folder url S : String) (s : St) (u : URLParts) (old fresh : Bytes)
    (hS : S ∈ s.failed)
    (hu : env.parseURL url = some u)
    (hcached : List.lookup (folder, lastSegment u.pathname) s.fs.cache = some old)
    (hget : env.remoteGet url = some fresh) :
    findCacheOrFetch env folder url (decide (S ∈ s.failed)) s =
      (.ok fresh,
        { s with
          fs := cacheImage folder (lastSegment u.pathname) fresh
                  (removeCache folder (lastSegment u.pathname) s.fs)
          events := s.events ++ [.getRemote url] }) := by
  have hb : decide (S ∈ s.failed) = true := decide_eq_true hS
  rw [hb]
  simp only [findCacheOrFetch, findImageInCache, hu, hcached, hget, if_pos]

def wSt6 : St := ⟨⟨[(("1", "b.png"), 5)], []⟩, ⟨[], [], []⟩, ["s1"], [], []⟩

/-- Witness for C6: submission `s1` is in the Failed set and a stale copy
of `b.png` sits in the cache; resolution returns the freshly fetched
bytes. -/
theorem failed_submission_stale_cache_invalidated_witness :
    findCacheOrFetch wEnv "1" "http://img.example/a/b.png"
        (decide ("s1" ∈ wSt6.failed)) wSt6 =
      (.ok 7,
        { wSt6 with
          fs := cacheImage "1" (lastSegment "/a/b.png") 7
                  (removeCache "1" (lastSegment "/a/b.png") wSt6.fs)
          events := wSt6.events ++ [.getRemote "http://img.example/a/b.png"] }) :=
  failed_submission_stale_cache_invalidated wEnv "1"
    "http://img.example/a/b.png" "s1" wSt6 ⟨"img.example", "/a/b.png"⟩ 5 7
    (by decide) (by decide) (by decide) rfl

/-! ## Fine-grained step specifications

Beyond the `NeutralStep`/`GoodStep` invariants, the per-submission claims
need to know which remote calls each block can issue and how it transforms
the payload and the accumulators. -/

lemma findCacheOrFetch_state (env : Env) (f url : String) (b : Bool) (s : St) :
    (findCacheOrFetch env f url b s).2.mapping = s.mapping ∧
    (findCacheOrFetch env f url b s).2.failed = s.failed ∧
    (findCacheOrFetch env f url b s).2.missing = s.missing ∧
    ∃ E, (findCacheOrFetch env f url b s).2.events = s.events ++ E ∧
      ∀ e ∈ E, e = Event.getRemote url := by
  unfold findCacheOrFetch
  cases h : env.parseURL url with
  | none => exact ⟨rfl, rfl, rfl, [], by simp, by simp⟩
  | some u =>
    dsimp only
    cases h2 : findImageInCache env f (lastSegment u.pathname) b s.fs with
    | mk r fs' =>
      cases r with
      | error e => exact ⟨rfl, rfl, rfl, [], by simp, by simp⟩
      | ok o =>
        cases o with
        | some bytes => exact ⟨rfl, rfl, rfl, [], by simp, by simp⟩
        | none =>
          dsimp only
          cases h3 : env.remoteGet url with
          | none => exact ⟨rfl, rfl, rfl, [.getRemote url], rfl, by simp⟩
          | some data => exact ⟨rfl, rfl, rfl, [.getRemote url], rfl, by simp⟩

/-- Full effect of the author-icon block: it never touches the mapping, the
Failed set or the Missing list; every event it logs is a GET of the icon
url or an icon upload, and only when the icon is truthy with a non-legacy
host; and when it continues, the payload is unchanged except possibly for
`srcIcon`. -/
lemma submissionIconStep_spec (env : Env) (sub : ISubmission)
    (ns : NewSubmission) (s : St) :
    ((submissionIconStep env sub ns s).2.mapping = s.mapping ∧
     (submissionIconStep env sub ns s).2.failed = s.failed ∧
     (submissionIconStep env sub ns s).2.missing = s.missing) ∧
    (∃ E, (submissionIconStep env sub ns s).2.events = s.events ++ E ∧
      ∀ e ∈ E, ∃ icu u', strVal sub.srcIcon = some icu ∧
        env.parseURL icu = some u' ∧ u'.host ≠ legacyHost ∧
        (e = .getRemote icu ∨ ∃ b, e = .postSubmissionMedia b)) ∧
    (∀ ns', (submissionIconStep env sub ns s).1 = .ok (some ns') →
      ∃ o, ns' = { ns with srcIcon := o }) := by
  unfold submissionIconStep
  cases h : strVal sub.srcIcon with
  | none =>
    refine ⟨⟨rfl, rfl, rfl⟩, ⟨[], by simp, by simp⟩, ?_⟩
    intro ns' h'
    exact ⟨ns.srcIcon, by cases Option.some.inj (Except.ok.inj h'); rfl⟩
  | some icu =>
    dsimp only
    cases h2 : env.parseURL icu with
    | none =>
      refine ⟨⟨rfl, rfl, rfl⟩, ⟨[], by simp, by simp⟩, ?_⟩
      intro ns' h'
      exact absurd h' (by simp)
    | some u =>
      dsimp only
      by_cases hh : u.host = legacyHost
      · rw [if_pos hh]
        refine ⟨⟨rfl, rfl, rfl⟩, ⟨[], by simp, by simp⟩, ?_⟩
        intro ns' h'
        exact ⟨ns.srcIcon, by cases Option.some.inj (Except.ok.inj h'); rfl⟩
      · rw [if_neg hh]
        cases h3 : findCacheOrFetch env (toString sub.project) icu
            (decide (sub.oid ∈ s.failed)) s with
        | mk r s' =>
          have hst := findCacheOrFetch_state env (toString sub.project) icu
            (decide (sub.oid ∈ s.failed)) s
          rw [h3] at hst
          obtain ⟨hm, hf, hmi, Ef, hev, hef⟩ := hst
          cases r with
          | error e =>
            refine ⟨⟨hm, hf, hmi⟩, ⟨Ef, hev, ?_⟩, ?_⟩
            · intro e' he'
              exact ⟨icu, u, rfl, h2, hh, Or.inl (hef e' he')⟩
            · intro ns' h'
              exact absurd h' (by simp)
          | ok buf =>
            dsimp only
            cases h4 : env.postSubmissionMedia buf with
            | none =>
              refine ⟨⟨hm, hf, hmi⟩, ⟨Ef ++ [.postSubmissionMedia buf],
                by rw [hev, List.append_assoc], ?_⟩, ?_⟩
              · intro e' he'
                rcases List.mem_append.1 he' with hx | hx
                · exact ⟨icu, u, rfl, h2, hh, Or.inl (hef e' hx)⟩
                · exact ⟨icu, u, rfl, h2, hh, Or.inr ⟨buf, List.mem_singleton.1 hx⟩⟩
              · intro ns' h'
                exact absurd h' (by simp)
            | some mid =>
              refine ⟨⟨hm, hf, hmi⟩, ⟨Ef ++ [.postSubmissionMedia buf],
                by rw [hev, List.append_assoc], ?_⟩, ?_⟩
              · intro e' he'
                rcases List.mem_append.1 he' with hx | hx
                · exact ⟨icu, u, rfl, h2, hh, Or.inl (hef e' hx)⟩
                · exact ⟨icu, u, rfl, h2, hh, Or.inr ⟨buf, List.mem_singleton.1 hx⟩⟩
              · intro ns' h'
                exact ⟨some mid, by cases Option.some.inj (Except.ok.inj h'); rfl⟩

/-- Effect of the image block for a legacy-host image: the mapping is
untouched, the only remote calls it can issue are submission-media uploads
(in particular no GET), and a cache-store miss records the submission as
missing and skips it with the state otherwise unchanged. -/
lemma submissionImageStep_legacy_spec (env : Env) (sub : ISubmission)
    (ns : NewSubmission) (s : St) (url : String) (u : URLParts)
    (hsrc : sub.src = some url)
    (hu : env.parseURL url = some u)
    (hh : u.host = legacyHost) :
    (submissionImageStep env sub ns s).2.mapping = s.mapping ∧
    (∃ E, (submissionImageStep env sub ns s).2.events = s.events ++ E ∧
      ∀ e ∈ E, ∃ b, e = Event.postSubmissionMedia b) ∧
    (findImageInCache env (toString sub.project) (lastSegment u.pathname) false
        s.fs = (.ok none, s.fs) →
      submissionImageStep env sub ns s =
        (.ok none, { s with missing := s.missing ++ [sub] })) := by
  unfold submissionImageStep
  rw [hsrc]
  dsimp only
  rw [hu]
  dsimp only
  rw [if_pos hh]
  cases h3 : findImageInCache env (toString sub.project) (lastSegment u.pathname)
      false s.fs with
  | mk r fs' =>
    cases r with
    | error e =>
      refine ⟨rfl, ⟨[], by simp, by simp⟩, ?_⟩
      intro hm
      simp at hm
    | ok o =>
      cases o with
      | none =>
        refine ⟨rfl, ⟨[], by simp, by simp⟩, ?_⟩
        intro hm
        injection hm with h1 h2
        rw [h2]
      | some buf =>
        dsimp only
        cases h4 : env.postSubmissionMedia buf with
        | none =>
          refine ⟨rfl, ⟨[.postSubmissionMedia buf], rfl,
            fun e he => ⟨buf, List.mem_singleton.1 he⟩⟩, ?_⟩
          intro hm
          simp at hm
        | some mid =>
          refine ⟨rfl, ⟨[.postSubmissionMedia buf], rfl,
            fun e he => ⟨buf, List.mem_singleton.1 he⟩⟩, ?_⟩
          intro hm
          simp at hm

/-- The video branch is a no-op for non-video submissions. -/
lemma submissionVideoStep_not_video (env : Env) (sub : ISubmission)
    (ns : NewSubmission) (s : St) (ht : ¬ sub.type = ContentType.video) :
    submissionVideoStep env sub ns s = (.ok (some ns), s) := by
  unfold submissionVideoStep
  cases h : strVal sub.src with
  | none => rfl
  | some v =>
    dsimp only
    rw [if_neg ht]

/-- C5: migrating a submission of type image whose source URL host is the
legacy object-storage host never issues a remote GET for that URL — the
image is resolved by the local cache store only — and, for a submission
that actually reaches the image branch (icon falsy, not yet processed), a
cache-store miss records it as missing and skips it with the state
otherwise unchanged: nothing is added to Failed and no creation call is
made. -/
theorem legacy_image_cache_only (env : Env) (sub : ISubmission) (s : St)
    (url : String) (u : URLParts)
    (ht : sub.type = ContentType.image)
    (hsrc : sub.src = some url)
    (hu : env.parseURL url = some u)
    (hh : u.host = legacyHost) :
    (∃ E, (migrateSubmission env sub s).2.events = s.events ++ E ∧
       ∀ e ∈ E, e ≠ Event.getRemote url) ∧
    (strVal sub.srcIcon = none →
     LegacyId.str sub.oid ∉ s.mapping.successfullyProcessed →
     findImageInCache env (toString sub.project) (lastSegment u.pathname) false
         s.fs = (.ok none, s.fs) →
     migrateSubmission env sub s =
       (.ok (), { s with missing := s.missing ++ [sub] })) := by
  have htv : ¬ sub.type = ContentType.video := by rw [ht]; simp
  constructor
  · unfold migrateSubmission
    by_cases hmem : LegacyId.str sub.oid ∈ s.mapping.successfullyProcessed
    · rw [if_pos hmem]
      exact ⟨[], by simp, by simp⟩
    · rw [if_neg hmem]
      rw [submissionVideoStep_not_video env sub (baseSubmission sub s.mapping) s htv]
      dsimp only
      cases hi : submissionIconStep env sub (baseSubmission sub s.mapping) s with
      | mk r2 s₂ =>
        have hspec := submissionIconStep_spec env sub (baseSubmission sub s.mapping) s
        rw [hi] at hspec
        obtain ⟨⟨hm2, hf2, hmi2⟩, ⟨E2, he2, hche2⟩, hns2⟩ := hspec
        have hnot2 : ∀ e ∈ E2, e ≠ Event.getRemote url := by
          intro e he hcon
          obtain ⟨icu, u', hicu, hpicu, hhu', hor⟩ := hche2 e he
          rcases hor with hx | ⟨b, hx⟩
          · rw [hcon] at hx
            injection hx with hurl
            rw [← hurl] at hpicu
            rw [hu] at hpicu
            rw [← Option.some_inj.1 hpicu] at hhu'
            exact hhu' hh
          · rw [hcon] at hx
            exact Event.noConfusion hx
        cases r2 with
        | error e => exact ⟨E2, he2, hnot2⟩
        | ok o2 =>
          cases o2 with
          | none => exact ⟨E2, he2, hnot2⟩
          | some ns₂ =>
            dsimp only
            rw [if_pos ht]
            cases h3 : submissionImageStep env sub ns₂ s₂ with
            | mk r3 s₃ =>
              have hseg := submissionImageStep_legacy_spec env sub ns₂ s₂ url u hsrc hu hh
              rw [h3] at hseg
              obtain ⟨hm3, ⟨E3, he3, hche3⟩, hmiss3⟩ := hseg
              have hnot3 : ∀ e ∈ E3, e ≠ Event.getRemote url := by
                intro e he hcon
                obtain ⟨b, hb⟩ := hche3 e he
                rw [hcon] at hb
                exact Event.noConfusion hb
              have hcomb : s₃.events = s.events ++ (E2 ++ E3) := by
                rw [he3, he2, List.append_assoc]
              have hnotc : ∀ e ∈ E2 ++ E3, e ≠ Event.getRemote url := by
                intro e he
                rcases List.mem_append.1 he with hx | hx
                · exact hnot2 e hx
                · exact hnot3 e hx
              cases r3 with
              | error e => exact ⟨E2 ++ E3, hcomb, hnotc⟩
              | ok o3 =>
                cases o3 with
                | none => exact ⟨E2 ++ E3, hcomb, hnotc⟩
                | some ns₃ =>
                  dsimp only
                  unfold submissionCreateStep
                  cases h5 : env.postSubmission ns₃ with
                  | none =>
                    refine ⟨E2 ++ E3 ++ [.createSubmission sub.oid ns₃ false], ?_, ?_⟩
                    · dsimp only
                      rw [hcomb, List.append_assoc, List.append_assoc]
                    · intro e he hcon
                      rcases List.mem_append.1 he with hx | hx
                      · exact hnotc e hx hcon
                      · rw [List.mem_singleton.1 hx] at hcon
                        exact Event.noConfusion hcon.symm
                  | some r =>
                    refine ⟨E2 ++ E3 ++ [.createSubmission sub.oid ns₃ true], ?_, ?_⟩
                    · dsimp only
                      rw [hcomb, List.append_assoc, List.append_assoc]
                    · intro e he hcon
                      rcases List.mem_append.1 he with hx | hx
                      · exact hnotc e hx hcon
                      · rw [List.mem_singleton.1 hx] at hcon
                        exact Event.noConfusion hcon.symm
  · intro hicon hproc hmiss
    unfold migrateSubmission
    rw [if_neg hproc]
    rw [submissionVideoStep_not_video env sub (baseSubmission sub s.mapping) s htv]
    dsimp only
    have hi : submissionIconStep env sub (baseSubmission sub s.mapping) s =
        (.ok (some (baseSubmission sub s.mapping)), s) := by
      unfold submissionIconStep
      rw [hicon]
    rw [hi]
    dsimp only
    rw [if_pos ht]
    have hseg := submissionImageStep_legacy_spec env sub
      (baseSubmission sub s.mapping) s url u hsrc hu hh
    rw [hseg.2.2 hmiss]

def wSub5 : ISubmission :=
  { oid := "s5", project := 1, author := none, srcIcon := none,
    type := .image, subtype := none,
    src := some "https://s3.fr-par.scw.cloud/x/y.png", message := none }

/-- Witness for C5: a legacy-hosted image submission against an empty cache
is recorded as missing and skipped, with the state otherwise unchanged. -/
theorem legacy_image_cache_only_witness :
    migrateSubmission wEnv wSub5 wS0 =
      (.ok (), { wS0 with missing := wS0.missing ++ [wSub5] }) :=
  (legacy_image_cache_only wEnv wSub5 wS0 "https://s3.fr-par.scw.cloud/x/y.png"
    ⟨"s3.fr-par.scw.cloud", "/x/y.png"⟩ rfl rfl (by decide) rfl).2
    rfl (by decide) (by decide)

/-- C8: for a submission of type video with a (truthy) source URL: when the
URL's host is the legacy object-storage host, the submission is recorded as
missing and skipped with the state otherwise unchanged (in particular no
creation call); otherwise the URL is carried through unchanged into every
submission-creation payload POSTed for it, and (icon falsy) no remote GET
of any kind is performed. -/
theorem video_submission_policy (env : Env) (sub : ISubmission) (s : St)
    (v : String) (u : URLParts)
    (ht : sub.type = ContentType.video)
    (hv : strVal sub.src = some v)
    (hu : env.parseURL v = some u) :
    (u.host = legacyHost →
      LegacyId.str sub.oid ∉ s.mapping.successfullyProcessed →
      migrateSubmission env sub s =
        (.ok (), { s with missing := s.missing ++ [sub] })) ∧
    (u.host ≠ legacyHost →
      ∃ E, (migrateSubmission env sub s).2.events = s.events ++ E ∧
        (∀ e ∈ E, ∀ oid ns ok, e = Event.createSubmission oid ns ok →
          ns.url = some v) ∧
        (strVal sub.srcIcon = none →
          ∀ e ∈ E, ∀ url', e ≠ Event.getRemote url')) := by
  have hti : ¬ sub.type = ContentType.image := by rw [ht]; simp
  constructor
  · intro hh hproc
    unfold migrateSubmission
    rw [if_neg hproc]
    have hvs : submissionVideoStep env sub (baseSubmission sub s.mapping) s =
        (.ok none, { s with missing := s.missing ++ [sub] }) := by
      unfold submissionVideoStep
      rw [hv]
      dsimp only
      rw [if_pos ht, hu]
      dsimp only
      rw [if_pos hh]
    rw [hvs]
  · intro hh
    by_cases hmem : LegacyId.str sub.oid ∈ s.mapping.successfullyProcessed
    · unfold migrateSubmission
      rw [if_pos hmem]
      refine ⟨[], by simp, ?_, ?_⟩
      · intro e he
        exact absurd he (List.not_mem_nil e)
      · intro _ e he
        exact absurd he (List.not_mem_nil e)
    · unfold migrateSubmission
      rw [if_neg hmem]
      have hvs : submissionVideoStep env sub (baseSubmission sub s.mapping) s =
          (.ok (some { baseSubmission sub s.mapping with url := some v }), s) := by
        unfold submissionVideoStep
        rw [hv]
        dsimp only
        rw [if_pos ht, hu]
        dsimp only
        rw [if_neg hh]
      rw [hvs]
      dsimp only
      cases hi : submissionIconStep env sub
          { baseSubmission sub s.mapping with url := some v } s with
      | mk r2 s₂ =>
        have hspec := submissionIconStep_spec env sub
          { baseSubmission sub s.mapping with url := some v } s
        rw [hi] at hspec
        obtain ⟨-, ⟨E2, he2, hche2⟩, hns2⟩ := hspec
        have hE2create : ∀ e ∈ E2, ∀ oid ns ok,
            e = Event.createSubmission oid ns ok → ns.url = some v := by
          intro e he oid ns ok hcon
          obtain ⟨icu, u', -, -, -, hor⟩ := hche2 e he
          rcases hor with hx | ⟨b, hx⟩ <;> rw [hcon] at hx <;>
            exact Event.noConfusion hx
        have hE2get : strVal sub.srcIcon = none →
            ∀ e ∈ E2, ∀ url', e ≠ Event.getRemote url' := by
          intro hicon e he url' hcon
          obtain ⟨icu, u', hicu, -, -, -⟩ := hche2 e he
          rw [hicon] at hicu
          exact Option.noConfusion hicu
        cases r2 with
        | error e => exact ⟨E2, he2, hE2create, hE2get⟩
        | ok o2 =>
          cases o2 with
          | none => exact ⟨E2, he2, hE2create, hE2get⟩
          | some ns₂ =>
            dsimp only
            rw [if_neg hti]
            dsimp only
            unfold submissionCreateStep
            obtain ⟨o, hns⟩ := hns2 ns₂ rfl
            cases h5 : env.postSubmission ns₂ with
            | none =>
              refine ⟨E2 ++ [.createSubmission sub.oid ns₂ false], ?_, ?_, ?_⟩
              · dsimp only
                rw [← List.append_assoc, ← he2]
              · intro e he oid ns ok hcon
                rcases List.mem_append.1 he with hx | hx
                · exact hE2create e hx oid ns ok hcon
                · rw [List.mem_singleton.1 hx] at hcon
                  injection hcon with h1 h2 h3
                  rw [← h2, hns]
              · intro hicon e he url' hcon
                rcases List.mem_append.1 he with hx | hx
                · exact hE2get hicon e hx url' hcon
                · rw [List.mem_singleton.1 hx] at hcon
                  exact Event.noConfusion hcon
            | some r =>
              refine ⟨E2 ++ [.createSubmission sub.oid ns₂ true], ?_, ?_, ?_⟩
              · dsimp only
                rw [← List.append_assoc, ← he2]
              · intro e he oid ns ok hcon
                rcases List.mem_append.1 he with hx | hx
                · exact hE2create e hx oid ns ok hcon
                · rw [List.mem_singleton.1 hx] at hcon
                  injection hcon with h1 h2 h3
                  rw [← h2, hns]
              · intro hicon e he url' hcon
                rcases List.mem_append.1 he with hx | hx
                · exact hE2get hicon e hx url' hcon
                · rw [List.mem_singleton.1 hx] at hcon
                  exact Event.noConfusion hcon

def wSub8 : ISubmission :=
  { oid := "s8", project := 1, author := none, srcIcon := none,
    type := .video, subtype := none,
    src := some "https://s3.fr-par.scw.cloud/x/y.png", message := none }

/-- Witness for C8: a legacy-hosted video submission is recorded as missing
and skipped without any remote call. -/
theorem video_submission_policy_witness :
    migrateSubmission wEnv wSub8 wS0 =
      (.ok (), { wS0 with missing := wS0.missing ++ [wSub8] }) :=
  (video_submission_policy wEnv wSub8 wS0 "https://s3.fr-par.scw.cloud/x/y.png"
    ⟨"s3.fr-par.scw.cloud", "/x/y.png"⟩ rfl (by decide) (by decide)).1 rfl
    (by decide)

/-- C9: a submission (not yet processed, with no truthy src) whose truthy
author-icon reference makes the icon try-block abort — fetch or upload
threw — is skipped: the migration returns without creating the submission,
without touching the Failed set, the Missing list or the mapping, so its
id stays absent from `successfullyProcessed` and it is reattempted on
every subsequent run. -/
theorem icon_error_skipped_silently (env : Env) (sub : ISubmission) (s : St)
    (icu : String)
    (hproc : LegacyId.str sub.oid ∉ s.mapping.successfullyProcessed)
    (hsrc : sub.src = none)
    (_hicon : strVal sub.srcIcon = some icu)
    (hfail : (submissionIconStep env sub (baseSubmission sub s.mapping) s).1 =
      .ok none) :
    (migrateSubmission env sub s).1 = .ok () ∧
    (migrateSubmission env sub s).2.failed = s.failed ∧
    (migrateSubmission env sub s).2.missing = s.missing ∧
    (migrateSubmission env sub s).2.mapping = s.mapping ∧
    (∃ E, (migrateSubmission env sub s).2.events = s.events ++ E ∧
      ∀ e ∈ E, e.createdId = none) := by
  unfold migrateSubmission
  rw [if_neg hproc]
  have hvs : submissionVideoStep env sub (baseSubmission sub s.mapping) s =
      (.ok (some (baseSubmission sub s.mapping)), s) := by
    unfold submissionVideoStep
    rw [hsrc]
    rfl
  rw [hvs]
  dsimp only
  cases hi : submissionIconStep env sub (baseSubmission sub s.mapping) s with
  | mk r2 s₂ =>
    have hspec := submissionIconStep_spec env sub (baseSubmission sub s.mapping) s
    rw [hi] at hspec
    obtain ⟨⟨hm, hf, hmi⟩, ⟨E, he, hche⟩, -⟩ := hspec
    rw [hi] at hfail
    have hr2 : r2 = .ok none := hfail
    subst hr2
    refine ⟨rfl, hf, hmi, hm, E, he, ?_⟩
    intro e he'
    obtain ⟨icu', u', -, -, -, hor⟩ := hche e he'
    rcases hor with hx | ⟨b, hx⟩ <;> rw [hx] <;> rfl

def wEnv9 : Env := { wEnv with remoteGet := fun _ => none }

def wSub9 : ISubmission :=
  { oid := "s9", project := 1, author := none,
    srcIcon := some "http://img.example/a/b.png", type := .text,
    subtype := none, src := none, message := none }

/-- Witness for C9: the icon of submission `s9` is nowhere in the cache and
its remote fetch fails; the submission is skipped with the accumulators
untouched. -/
theorem icon_error_skipped_silently_witness :
    (migrateSubmission wEnv9 wSub9 wS0).1 = .ok () ∧
    (migrateSubmission wEnv9 wSub9 wS0).2.failed = wS0.failed ∧
    (migrateSubmission wEnv9 wSub9 wS0).2.missing = wS0.missing ∧
    (migrateSubmission wEnv9 wSub9 wS0).2.mapping = wS0.mapping ∧
    (∃ E, (migrateSubmission wEnv9 wSub9 wS0).2.events = wS0.events ++ E ∧
      ∀ e ∈ E, e.createdId = none) :=
  icon_error_skipped_silently wEnv9 wSub9 wS0 "http://img.example/a/b.png"
    (by decide) rfl (by decide) (by decide)

lemma NoCreations.no_createSubmission {E : List Event} (h : NoCreations E) :
    ∀ e ∈ E, ∀ oid ns ok, e ≠ Event.createSubmission oid ns ok := by
  intro e he oid ns ok hcon
  have hid := h e he
  rw [hcon] at hid
  simp [Event.createdId] at hid

lemma projectOgImageStep_mapping (env : Env) (p : IProject) (np : NewProject)
    (s : St) : (projectOgImageStep env p np s).2.mapping = s.mapping := by
  unfold projectOgImageStep
  cases h : strVal p.ogImage with
  | none => rfl
  | some og =>
    dsimp only
    cases h2 : env.parseURL og with
    | none => rfl
    | some u =>
      dsimp only
      by_cases hh : u.host = legacyHost
      · rw [if_pos hh]
      · rw [if_neg hh]
        cases h3 : findCacheOrFetch env (toString p._id) og false s with
        | mk r s' =>
          have hst := (findCacheOrFetch_state env (toString p._id) og false s).1
          rw [h3] at hst
          cases r with
          | error e => exact hst
          | ok buf =>
            dsimp only
            cases h4 : env.postMedia buf with
            | none => exact hst
            | some mid => exact hst

lemma mediaTask_mapping (env : Env) (p : IProject) (m : IMediaItem) (s : St) :
    (mediaTask env p m s).2.mapping = s.mapping := by
  unfold mediaTask
  cases m.type with
  | video => rfl
  | text => rfl
  | image =>
    dsimp only
    cases h : m.src with
    | none => rfl
    | some mu =>
      dsimp only
      cases h2 : env.parseURL mu with
      | none => rfl
      | some u =>
        dsimp only
        by_cases hh : u.host = legacyHost
        · rw [if_pos hh]
        · rw [if_neg hh]
          cases h3 : findCacheOrFetch env (toString p._id) mu false s with
          | mk r s' =>
            have hst := (findCacheOrFetch_state env (toString p._id) mu false s).1
            rw [h3] at hst
            cases r with
            | error e => exact hst
            | ok buf =>
              dsimp only
              cases h4 : env.postMedia buf with
              | none => exact hst
              | some mid => exact hst

lemma runMediaTasks_mapping (env : Env) (p : IProject) :
    ∀ (ms : List IMediaItem) (s : St),
      (runMediaTasks env p ms s).2.mapping = s.mapping
  | [], s => rfl
  | m :: rest, s => by
    unfold runMediaTasks
    cases h : mediaTask env p m s with
    | mk r s' =>
      have hm : s'.mapping = s.mapping := by
        have := mediaTask_mapping env p m s
        rw [h] at this
        exact this
      cases r with
      | error e => exact hm
      | ok res =>
        dsimp only
        cases h2 : runMediaTasks env p rest s' with
        | mk r2 s'' =>
          have hm2 : s''.mapping = s'.mapping := by
            have := runMediaTasks_mapping env p rest s'
            rw [h2] at this
            exact this
          cases r2 with
          | error e => exact hm2.trans hm
          | ok tail => exact hm2.trans hm

/-- C7: when the `/api/projects` POST for a not-yet-processed project fails,
the project is neither mapped nor recorded as processed, and none of its
submissions receives a creation call in this run — the whole project branch
is left for the next run. -/
theorem project_creation_failure_atomic (env : Env) (snap : Snapshot)
    (p : IProject) (s : St)
    (hproc : LegacyId.num p._id ∉ s.mapping.successfullyProcessed)
    (hpost : ∀ np, env.postProject np = none) :
    (migrateProject env snap p s).2.mapping.projects = s.mapping.projects ∧
    (migrateProject env snap p s).2.mapping.successfullyProcessed =
      s.mapping.successfullyProcessed ∧
    (∃ E, (migrateProject env snap p s).2.events = s.events ++ E ∧
      ∀ e ∈ E, ∀ oid ns ok, e ≠ Event.createSubmission oid ns ok) := by
  unfold migrateProject
  dsimp only
  rw [if_neg hproc]
  cases h1 : projectOgImageStep env p (baseProject env p s.mapping) s with
  | mk r1 s₁ =>
    have hm1 : s₁.mapping = s.mapping := by
      have := projectOgImageStep_mapping env p (baseProject env p s.mapping) s
      rw [h1] at this
      exact this
    have hn1 : NeutralStep s s₁ := by
      have := projectOgImageStep_neutral env p (baseProject env p s.mapping) s
      rw [h1] at this
      exact this
    obtain ⟨-, E1, he1, hnc1⟩ := hn1
    cases r1 with
    | error e =>
      exact ⟨by rw [hm1], by rw [hm1], E1, he1, hnc1.no_createSubmission⟩
    | ok o1 =>
      cases o1 with
      | none =>
        exact ⟨by rw [hm1], by rw [hm1], E1, he1, hnc1.no_createSubmission⟩
      | some np₁ =>
        dsimp only
        cases h2 : runMediaTasks env p (p.media.getD []) s₁ with
        | mk r2 s₂ =>
          have hm2 : s₂.mapping = s₁.mapping := by
            have := runMediaTasks_mapping env p (p.media.getD []) s₁
            rw [h2] at this
            exact this
          have hn2 : NeutralStep s₁ s₂ := by
            have := runMediaTasks_neutral env p (p.media.getD []) s₁
            rw [h2] at this
            exact this
          obtain ⟨-, E2, he2, hnc2⟩ := hn2
          cases r2 with
          | error e =>
            refine ⟨by rw [hm2, hm1], by rw [hm2, hm1], E1 ++ E2, ?_, ?_⟩
            · rw [he2, he1, List.append_assoc]
            · intro e' he' oid ns ok
              rcases List.mem_append.1 he' with hx | hx
              · exact hnc1.no_createSubmission e' hx oid ns ok
              · exact hnc2.no_createSubmission e' hx oid ns ok
          | ok mediaList =>
            dsimp only
            rw [hpost { np₁ with media := mediaList }]
            refine ⟨by rw [hm2, hm1], by rw [hm2, hm1],
              E1 ++ E2 ++ [.createProject p._id false], ?_, ?_⟩
            · dsimp only
              rw [he2, he1, List.append_assoc, List.append_assoc,
                List.append_assoc]
            · intro e' he' oid ns ok
              rcases List.mem_append.1 he' with hx | hx
              · rcases List.mem_append.1 hx with hy | hy
                · exact hnc1.no_createSubmission e' hy oid ns ok
                · exact hnc2.no_createSubmission e' hy oid ns ok
              · rw [List.mem_singleton.1 hx]
                intro hcon
                exact Event.noConfusion hcon

def wEnv7 : Env := { wEnv with postProject := fun _ => none }

def wProj7 : IProject :=
  { _id := 7, status := .ongoing, guild := "g1", media := none,
    title := "T", shortDescription := "", description := "", links := none,
    dateMs := "0", flags := none, ogImage := none, backgroundMusic := none,
    credits := none }

def wSub7 : ISubmission :=
  { oid := "s7", project := 7, author := none, srcIcon := none,
    type := .text, subtype := none, src := none, message := none }

def wSnap7 : Snapshot := ⟨[], [wProj7], [wSub7]⟩

/-- Witness for C7: project 7 has one submission; its creation POST fails,
so nothing is mapped or processed and the submission gets no creation
call. -/
theorem project_creation_failure_atomic_witness :
    (migrateProject wEnv7 wSnap7 wProj7 wS0).2.mapping.projects =
      wS0.mapping.projects ∧
    (migrateProject wEnv7 wSnap7 wProj7 wS0).2.mapping.successfullyProcessed =
      wS0.mapping.successfullyProcessed ∧
    (∃ E, (migrateProject wEnv7 wSnap7 wProj7 wS0).2.events =
        wS0.events ++ E ∧
      ∀ e ∈ E, ∀ oid ns ok, e ≠ Event.createSubmission oid ns ok) :=
  project_creation_failure_atomic wEnv7 wSnap7 wProj7 wS0 (by decide)
    (fun _ => rfl)

def wEnv3 : Env := { wEnv with postSubmission := fun _ => none }

def wSub3 : ISubmission :=
  { oid := "s3", project := 1, author := none, srcIcon := none,
    type := .text, subtype := none, src := none, message := none }

/-- Counterexample to C3: submission `s3` has no media at all, its
`/api/submissions` POST fails, and its legacy id IS pushed onto the Failed
set — contradicting the claim that an EntityCreationError does not mark
Failed. -/
theorem submission_creation_failure_cex :
    (migrateSubmission wEnv3 wSub3 wS0).1 = .ok () ∧
    (migrateSubmission wEnv3 wSub3 wS0).2.failed = ["s3"] ∧
    (migrateSubmission wEnv3 wSub3 wS0).2.mapping.successfullyProcessed = [] := by
  exact ⟨rfl, rfl, rfl⟩

/-- C3 amended: when the `/api/submissions` POST for a submission fails,
the submission is aborted for this run and its legacy id IS appended to
the Failed set (forcing cache invalidation on the next attempt); it is not
recorded as processed, so it is retried on the next run.  Stated for a
submission that reaches the POST with no truthy media fields. -/
theorem submission_creation_failure_marks_failed (env : Env)
    (sub : ISubmission) (s : St)
    (hproc : LegacyId.str sub.oid ∉ s.mapping.successfullyProcessed)
    (hsrc : sub.src = none)
    (hicon : strVal sub.srcIcon = none)
    (hti : ¬ sub.type = ContentType.image)
    (hpost : env.postSubmission (baseSubmission sub s.mapping) = none) :
    migrateSubmission env sub s =
      (.ok (), { s with
        events := s.events ++
          [.createSubmission sub.oid (baseSubmission sub s.mapping) false]
        failed := s.failed ++ [sub.oid] }) := by
  unfold migrateSubmission
  rw [if_neg hproc]
  have hvs : submissionVideoStep env sub (baseSubmission sub s.mapping) s =
      (.ok (some (baseSubmission sub s.mapping)), s) := by
    unfold submissionVideoStep
    rw [hsrc]
    rfl
  rw [hvs]
  dsimp only
  have hic : submissionIconStep env sub (baseSubmission sub s.mapping) s =
      (.ok (some (baseSubmission sub s.mapping)), s) := by
    unfold submissionIconStep
    rw [hicon]
  rw [hic]
  dsimp only
  rw [if_neg hti]
  dsimp only
  unfold submissionCreateStep
  rw [hpost]

/-- Witness for the amended C3. -/
theorem submission_creation_failure_marks_failed_witness :
    migrateSubmission wEnv3 wSub3 wS0 =
      (.ok (), { wS0 with
        events := wS0.events ++
          [.createSubmission "s3" (baseSubmission wSub3 wS0.mapping) false]
        failed := wS0.failed ++ ["s3"] }) :=
  submission_creation_failure_marks_failed wEnv3 wSub3 wS0 (by decide) rfl rfl
    (by decide) rfl

def cexCfg : Config := ⟨some "u", some "k", some "b", some "m"⟩

def cexGuildBad : IGuild :=
  { _id := "bad", name := "Bad", description := "", image := "not a url",
    invite := "", debutDateMs := "0", color := none }

def cexSnap2 : Snapshot := ⟨[cexGuildBad, wGuild], [], []⟩

/-- Counterexample to C2: all four environment variables are present, yet
the run aborts with a URL-parse error on the first guild's icon URL
(`new URL(guild.image)` sits outside every try block), and the second
guild is never reached — no event is logged, no state changes.  A
malformed URL field is a per-record error that is NOT caught at the entity
boundary. -/
theorem per_entity_catch_cex :
    (runProgram cexCfg wEnv cexSnap2 wS0).1 = .error (.urlParse "not a url") ∧
    (runProgram cexCfg wEnv cexSnap2 wS0).2 = wS0 := by
  exact ⟨rfl, rfl⟩

/-- C2 amended: errors inside an entity's try block — media fetch, cache
invalidation, upload — and entity-creation POST failures are caught at
that entity and converted into skipping it while its siblings continue:
here, a guild whose icon block aborts is skipped and the guild loop
proceeds with the remaining guilds from the resulting state.  (URL-parse
errors, by contrast, are thrown outside the try blocks and abort the whole
run, as the counterexample shows; missing startup configuration also
aborts.) -/
theorem guild_icon_error_caught (env : Env) (snap : Snapshot) (g : IGuild)
    (rest : List IGuild) (s : St) (u : URLParts)
    (hproc : LegacyId.str g._id ∉ s.mapping.successfullyProcessed)
    (hu : env.parseURL g.image = some u)
    (hh : ¬ u.host = legacyHost)
    (hicon : (guildIconStep env g (baseGuild env g) s).1 = none) :
    migrateGuild env snap g s =
      (.ok (), (guildIconStep env g (baseGuild env g) s).2) ∧
    migrateGuilds env snap (g :: rest) s =
      migrateGuilds env snap rest (guildIconStep env g (baseGuild env g) s).2 := by
  have hmg : migrateGuild env snap g s =
      (.ok (), (guildIconStep env g (baseGuild env g) s).2) := by
    unfold migrateGuild
    dsimp only
    rw [if_neg hproc, hu]
    dsimp only
    rw [if_neg hh]
    cases hg : guildIconStep env g (baseGuild env g) s with
    | mk o s₁ =>
      rw [hg] at hicon
      have ho : o = none := hicon
      subst ho
      rfl
  refine ⟨hmg, ?_⟩
  conv_lhs => unfold migrateGuilds
  rw [hmg]

def wGuildIconFail : IGuild := { wGuild with _id := "gf" }

/-- Witness for the amended C2: guild `gf`'s icon fetch fails (dead remote,
empty cache), the guild is skipped, and the loop continues with guild
`g1`. -/
theorem guild_icon_error_caught_witness :
    migrateGuild wEnv9 wSnap wGuildIconFail wS0 =
      (.ok (), (guildIconStep wEnv9 wGuildIconFail
        (baseGuild wEnv9 wGuildIconFail) wS0).2) ∧
    migrateGuilds wEnv9 wSnap [wGuildIconFail, wGuild] wS0 =
      migrateGuilds wEnv9 wSnap [wGuild]
        (guildIconStep wEnv9 wGuildIconFail
          (baseGuild wEnv9 wGuildIconFail) wS0).2 :=
  guild_icon_error_caught wEnv9 wSnap wGuildIconFail [wGuild] wS0
    ⟨"img.example", "/a/b.png"⟩ (by decide) (by decide) (by decide) (by decide)

def cexSt4 : St := { wS0 with failed := ["f1"] }

def cexFiles4 : DataFiles := ⟨⟨[], [], []⟩, [], []⟩

/-- Counterexample to C4: `exitHandler` — the flush run on `exit`, SIGINT,
SIGUSR1/2 and uncaught exceptions — writes `idmap.json` and `missing.json`
but NOT `failed.json`: a Failed set recorded during the run is not flushed
on interruption. -/
theorem exit_flush_cex :
    (exitHandler cexSt4 cexFiles4).failedFile ≠ cexSt4.failed := by
  exact fun h => List.noConfusion h

/-- C4 amended: on every exit path the Mapping state and the Missing list
are flushed by `exitHandler`; the Failed set is written to durable storage
only by the end-of-`main` flush after a normal completion, so Failed-set
entries recorded since the start of the run are lost on an interrupt. -/
theorem exit_flush_behaviour (s : St) (files : DataFiles) :
    (exitHandler s files).idmapFile = s.mapping ∧
    (exitHandler s files).missingFile = s.missing ∧
    (exitHandler s files).failedFile = files.failedFile ∧
    (mainFinalFlush s files).idmapFile = s.mapping ∧
    (mainFinalFlush s files).missingFile = s.missing ∧
    (mainFinalFlush s files).failedFile = s.failed :=
  ⟨rfl, rfl, rfl, rfl, rfl, rfl⟩

end Migration
